import Mathlib

/-!
Verification of `src/bulls_and_cows/src/main.rs` against its design
specification.

The program draws a secret of 4 digits (each 0–9), then loops: it reads a
line, trims it, tries to parse it as a `u32` (`continue` on failure),
discards it when its length is not 4, otherwise increments the attempt
counter, decodes the 4 characters to digits (`unwrap` panics on a
non-digit), scores the guess against the secret and prints the score,
terminating when all 4 positions match.

The scorer is embedded below as `score`; the per-iteration input handling
as `stepLine`; the session loop as `run`.  All definitions are translated
from the source.  Lines handed to `stepLine` are the already-trimmed lines
(the source trims before every check; note that the source compares the
byte length against 4 while we use the character count, which agrees on
every line that survives the parse gate, since a successfully parsed line
consists of ASCII digits and an optional leading `+`).
-/

namespace BullsAndCows

/-- Occurrence count of digit value `d` in a digit sequence. -/
def countD (d : Nat) : List Nat → Nat
  | [] => 0
  | x :: xs => (if x = d then 1 else 0) + countD d xs

/-- One histogram-bucket increment: `snc[d] += 1` on a functional array. -/
def bump (h : Nat → Nat) (d : Nat) : Nat → Nat :=
  fun e => if e = d then h e + 1 else h e

/-- The histogram built by the source's counting loop
(`snc[secret_number[index]] += 1` over the 4 indices), starting from the
all-zero array `[0; 10]`. -/
def buildHist (xs : List Nat) : Nat → Nat :=
  xs.foldl bump (fun _ => 0)

/-- The source's overlap loop: `for index in 0..10 { b += cmp::min(snc[index], gnc[index]); }`. -/
def overlapLoop (snc gnc : Nat → Nat) : Nat :=
  (List.range 10).foldl (fun b d => b + min (snc d) (gnc d)) 0

/-- The first `k` iterations of the source's bulls loop
(`if secret_number[index] == guess_number[index] { a += 1; b -= 1; }`),
starting from `a = 0` and `b = b0`.  `k = 4` is the full loop; smaller `k`
exposes the intermediate states of `(a, b)`. -/
def abSteps (s g : List Nat) (b0 : Int) (k : Nat) : Nat × Int :=
  (List.range k).foldl
    (fun ab i => if s.getD i 0 = g.getD i 0 then (ab.1 + 1, ab.2 - 1) else ab)
    (0, b0)

/-- The full bulls loop of the source (indices `0..4`). -/
def abLoop (s g : List Nat) (b0 : Int) : Nat × Int :=
  abSteps s g b0 4

/-- The scorer of lines 42–61 of the source: build both histograms, take
`b0 = Σ min(snc[d], gnc[d])`, then count positional matches while
decrementing `b`.  Returns the printed pair `(a, b)`. -/
def score (s g : List Nat) : Nat × Int :=
  abLoop s g ((overlapLoop (buildHist s) (buildHist g) : Nat) : Int)

/-- Spec-side positional match count: `a = Σ_i [secret[i] == guess[i]]`,
written directly from the specification's words. -/
def specBulls : List Nat → List Nat → Nat
  | x :: xs, y :: ys => (if x = y then 1 else 0) + specBulls xs ys
  | _, _ => 0

/-- Spec-side multiset overlap: `b0 = Σ_d min(snc[d], gnc[d])` over digit
values `0–9`, written directly from the specification's words. -/
def specOverlap (s g : List Nat) : Nat :=
  ∑ d ∈ Finset.range 10, min (countD d s) (countD d g)

/-- Rust's `char::to_digit(10)`: the value of a decimal digit character,
`none` on anything else. -/
def digitVal? (c : Char) : Option Nat :=
  if '0' ≤ c ∧ c ≤ '9' then some (c.toNat - '0'.toNat) else none

/-- One step of the digit-accumulation inside `u32::from_str`: multiply by
the radix, add the digit, fail on a non-digit or on `u32` overflow. -/
def parseStep (acc : Option Nat) (c : Char) : Option Nat :=
  match acc, digitVal? c with
  | some n, some d => if n * 10 + d < 2 ^ 32 then some (n * 10 + d) else none
  | _, _ => none

/-- Rust's `str::parse::<u32>()` on the (already trimmed) character list:
an optional leading `+`, then at least one decimal digit, no overflow. -/
def parseU32 (cs : List Char) : Option Nat :=
  let ds := match cs with
    | '+' :: rest => rest
    | _ => cs
  if ds = [] then none else ds.foldl parseStep (some 0)

/-- What one loop iteration does with one trimmed line. -/
inductive IterOutcome where
  /-- `continue` before the attempt counter: no count change, no score. -/
  | discarded : IterOutcome
  /-- the decode `unwrap` panicked; the counter had already been bumped. -/
  | panicked (newCount : Nat) : IterOutcome
  /-- scored and printed; `won` records whether `a == 4` fired. -/
  | scored (newCount : Nat) (a : Nat) (b : Int) (won : Bool) : IterOutcome
deriving DecidableEq

/-- The source's decode loop (lines 35–40): each of the characters in
turn through `to_digit(10)`, failing at the first non-digit (where the
source's `unwrap` panics). -/
def decodeDigits : List Char → Option (List Nat)
  | [] => some []
  | c :: cs =>
    match digitVal? c, decodeDigits cs with
    | some d, some ds => some (d :: ds)
    | _, _ => none

/-- Lines 24–68 of the source for one iteration, on the trimmed line:
parse gate (`continue` on `Err`), length gate (`continue` when `!= 4`),
`input_count += 1`, per-character decode (`unwrap` panic on failure),
score, and the `a == 4` win test. -/
def stepLine (secret : List Nat) (count : Nat) (line : List Char) : IterOutcome :=
  match parseU32 line with
  | none => .discarded
  | some _ =>
    if line.length ≠ 4 then .discarded
    else
      match decodeDigits line with
      | none => .panicked (count + 1)
      | some gNum =>
        let ab := score secret gNum
        .scored (count + 1) ab.1 ab.2 (ab.1 == 4)

/-- Everything the iteration prints on stdout: the prompt, then (only for
an accepted, successfully decoded guess) the score line, then (only on a
win) the win message carrying the attempt count. -/
def iterOutputs (secret : List Nat) (count : Nat) (line : List Char) : List String :=
  "Please input your guess." ::
    match stepLine secret count line with
    | .discarded => []
    | .panicked _ => []
    | .scored c a b won =>
      ("A : " ++ toString a ++ ", B : " ++ toString b) ::
        (if won then ["You Win! You tried : " ++ toString c] else [])

/-- How a whole session ends, given the finite list of trimmed lines fed
to it. -/
inductive RunResult where
  | won (attempts : Nat) : RunResult
  | panicked (attempts : Nat) : RunResult
  | outOfInput (attempts : Nat) : RunResult
deriving DecidableEq

/-- The session loop of the source, driven by a list of trimmed input
lines: each iteration is `stepLine`; a win breaks out of the loop, a
decode panic aborts, anything else loops with the updated counter. -/
def run (secret : List Nat) (count : Nat) : List (List Char) → RunResult
  | [] => .outOfInput count
  | line :: rest =>
    match stepLine secret count line with
    | .discarded => run secret count rest
    | .panicked c => .panicked c
    | .scored c _ _ won => if won then .won c else run secret c rest

/-! ### Helper lemmas about the scorer -/

lemma foldl_bump_apply (xs : List Nat) (h : Nat → Nat) (d : Nat) :
    xs.foldl bump h d = h d + countD d xs := by
  induction xs generalizing h with
  | nil => simp [countD]
  | cons x xs ih =>
    rw [List.foldl_cons, ih, countD]
    rcases eq_or_ne d x with rfl | hne
    · simp [bump]; omega
    · simp [bump, hne, Ne.symm hne]

lemma buildHist_apply (xs : List Nat) (d : Nat) : buildHist xs d = countD d xs := by
  simpa using foldl_bump_apply xs (fun _ => 0) d

lemma overlapLoop_eq_sum (f g : Nat → Nat) :
    overlapLoop f g = ∑ d ∈ Finset.range 10, min (f d) (g d) := by
  simp [overlapLoop, List.range_succ, Finset.sum_range_succ]

lemma overlapLoop_hist (s g : List Nat) :
    overlapLoop (buildHist s) (buildHist g) = specOverlap s g := by
  rw [overlapLoop_eq_sum, specOverlap]
  exact Finset.sum_congr rfl (fun d _ => by rw [buildHist_apply, buildHist_apply])

lemma sum_countD (g : List Nat) (hg : ∀ x ∈ g, x < 10) :
    ∑ d ∈ Finset.range 10, countD d g = g.length := by
  induction g with
  | nil => simp [countD]
  | cons x xs ih =>
    have hx : x < 10 := hg x (by simp)
    have ihs := ih (fun y hy => hg y (by simp [hy]))
    simp only [countD, Finset.sum_add_distrib, ihs, List.length_cons]
    rw [Finset.sum_ite_eq (Finset.range 10) x (fun _ => 1)]
    simp [Finset.mem_range.mpr hx]
    omega

lemma specOverlap_le_length (s g : List Nat) (hg : ∀ x ∈ g, x < 10) :
    specOverlap s g ≤ g.length := by
  calc specOverlap s g ≤ ∑ d ∈ Finset.range 10, countD d g :=
        Finset.sum_le_sum (fun d _ => min_le_right _ _)
    _ = g.length := sum_countD g hg

lemma countD_cons_le (x d : Nat) (xs : List Nat) : countD d xs ≤ countD d (x :: xs) := by
  rw [countD]; omega

lemma min_countD_cons_eq (x d : Nat) (xs ys : List Nat) :
    min (countD d (x :: xs)) (countD d (x :: ys)) =
      (if x = d then 1 else 0) + min (countD d xs) (countD d ys) := by
  simp only [countD]
  split_ifs <;> omega

lemma specBulls_le_specOverlap (s g : List Nat) (hs : ∀ x ∈ s, x < 10) :
    specBulls s g ≤ specOverlap s g := by
  induction s generalizing g with
  | nil => simp [specBulls]
  | cons x xs ih =>
    cases g with
    | nil => simp [specBulls]
    | cons y ys =>
      have hx : x < 10 := hs x (by simp)
      have hxs : ∀ z ∈ xs, z < 10 := fun z hz => hs z (by simp [hz])
      rcases eq_or_ne x y with rfl | hne
      · have key : specOverlap (x :: xs) (x :: ys) = 1 + specOverlap xs ys := by
          simp only [specOverlap, min_countD_cons_eq, Finset.sum_add_distrib]
          rw [Finset.sum_ite_eq (Finset.range 10) x (fun _ => 1)]
          simp [Finset.mem_range.mpr hx]
        rw [key, specBulls]
        simp only [if_pos rfl]
        exact Nat.add_le_add_left (ih ys hxs) 1
      · have key : specOverlap xs ys ≤ specOverlap (x :: xs) (y :: ys) :=
          Finset.sum_le_sum (fun d _ =>
            min_le_min (countD_cons_le x d xs) (countD_cons_le y d ys))
        rw [specBulls]
        simp only [if_neg hne]
        exact le_trans (by simpa using ih ys hxs) key

lemma specBulls_le_length (s g : List Nat) : specBulls s g ≤ s.length := by
  induction s generalizing g with
  | nil => simp [specBulls]
  | cons x xs ih =>
    cases g with
    | nil => simp [specBulls]
    | cons y ys =>
      rw [specBulls, List.length_cons]
      have := ih ys
      split_ifs <;> omega

lemma specBulls_comm (s g : List Nat) : specBulls s g = specBulls g s := by
  induction s generalizing g with
  | nil => cases g <;> rfl
  | cons x xs ih =>
    cases g with
    | nil => rfl
    | cons y ys =>
      rw [specBulls, specBulls, ih]
      rcases eq_or_ne x y with rfl | hne
      · rfl
      · rw [if_neg hne, if_neg (Ne.symm hne)]

lemma specOverlap_comm (s g : List Nat) : specOverlap s g = specOverlap g s := by
  unfold specOverlap
  exact Finset.sum_congr rfl (fun d _ => Nat.min_comm _ _)

lemma list_len4 (l : List Nat) (h : l.length = 4) :
    ∃ a b c d, l = [a, b, c, d] := by
  rcases l with _ | ⟨a, _ | ⟨b, _ | ⟨c, _ | ⟨d, _ | ⟨e, t⟩⟩⟩⟩⟩ <;> simp_all

lemma range_four : List.range 4 = [0, 1, 2, 3] := by decide

lemma abLoop_spec (s0 s1 s2 s3 g0 g1 g2 g3 : Nat) (b0 : Int) :
    abLoop [s0, s1, s2, s3] [g0, g1, g2, g3] b0 =
      (specBulls [s0, s1, s2, s3] [g0, g1, g2, g3],
        b0 - specBulls [s0, s1, s2, s3] [g0, g1, g2, g3]) := by
  rw [abLoop, abSteps, range_four]
  simp only [List.foldl_cons, List.foldl_nil, List.getD_cons_zero, List.getD_cons_succ,
    specBulls]
  norm_num
  split_ifs <;> simp_all <;> omega

lemma score_eq_spec (s g : List Nat) (hs : s.length = 4) (hg : g.length = 4) :
    score s g = (specBulls s g, (specOverlap s g : Int) - specBulls s g) := by
  obtain ⟨s0, s1, s2, s3, rfl⟩ := list_len4 s hs
  obtain ⟨g0, g1, g2, g3, rfl⟩ := list_len4 g hg
  rw [score, overlapLoop_hist, abLoop_spec]

lemma abLoop_fst (s g : List Nat) (hs : s.length = 4) (hg : g.length = 4) (b0 : Int) :
    (abLoop s g b0).1 = specBulls s g := by
  obtain ⟨s0, s1, s2, s3, rfl⟩ := list_len4 s hs
  obtain ⟨g0, g1, g2, g3, rfl⟩ := list_len4 g hg
  rw [abLoop_spec]

lemma abSteps_succ (s g : List Nat) (b0 : Int) (k : Nat) :
    abSteps s g b0 (k + 1) =
      if s.getD k 0 = g.getD k 0 then
        ((abSteps s g b0 k).1 + 1, (abSteps s g b0 k).2 - 1)
      else abSteps s g b0 k := by
  rw [abSteps, abSteps, List.range_succ, List.foldl_append, List.foldl_cons, List.foldl_nil]

lemma abSteps_snd (s g : List Nat) (b0 : Int) (k : Nat) :
    (abSteps s g b0 k).2 = b0 - (abSteps s g b0 k).1 := by
  induction k with
  | zero => simp [abSteps]
  | succ k ih => rw [abSteps_succ]; split_ifs <;> (try simp) <;> omega

lemma abSteps_fst_mono (s g : List Nat) (b0 : Int) {k l : Nat} (h : k ≤ l) :
    (abSteps s g b0 k).1 ≤ (abSteps s g b0 l).1 := by
  induction h with
  | refl => exact le_refl _
  | step h ih =>
    refine le_trans ih ?_
    rw [abSteps_succ]
    split_ifs <;> simp

/-! ### Claims about the scorer -/

/-- Claim C1: for every secret `S` and guess `G`, each a sequence of 4
digits in `[0,9]`, the scorer returns `(a, b)` with
`a = Σ_i [S[i] == G[i]]` and `b = b0 - a` where
`b0 = Σ_d min(count of d in S, count of d in G)`. -/
theorem scorer_matches_spec (s g : List Nat) (hs : s.length = 4) (hg : g.length = 4)
    (hsd : ∀ x ∈ s, x < 10) (hgd : ∀ x ∈ g, x < 10) :
    score s g = (specBulls s g, (specOverlap s g : Int) - specBulls s g) :=
  score_eq_spec s g hs hg

/-- Witness for `scorer_matches_spec` at the spec's worked example
`S = [1,2,3,4]`, `G = [1,1,2,5]`. -/
theorem scorer_matches_spec_witness :
    (([1, 2, 3, 4] : List Nat).length = 4) ∧ (([1, 1, 2, 5] : List Nat).length = 4) ∧
      (∀ x ∈ ([1, 2, 3, 4] : List Nat), x < 10) ∧
      (∀ x ∈ ([1, 1, 2, 5] : List Nat), x < 10) ∧
      score [1, 2, 3, 4] [1, 1, 2, 5] =
        (specBulls [1, 2, 3, 4] [1, 1, 2, 5],
          (specOverlap [1, 2, 3, 4] [1, 1, 2, 5] : Int) - specBulls [1, 2, 3, 4] [1, 1, 2, 5]) :=
  ⟨by decide, by decide, by decide, by decide,
    scorer_matches_spec [1, 2, 3, 4] [1, 1, 2, 5] (by decide) (by decide) (by decide) (by decide)⟩

/-- Claim C3: for every secret and guess of length 4 with digits in
`[0,9]`, bulls and cows are each in `[0,4]` and their sum is at most 4. -/
theorem score_in_range (s g : List Nat) (hs : s.length = 4) (hg : g.length = 4)
    (hsd : ∀ x ∈ s, x < 10) (hgd : ∀ x ∈ g, x < 10) :
    (score s g).1 ≤ 4 ∧ 0 ≤ (score s g).2 ∧ (score s g).2 ≤ 4 ∧
      ((score s g).1 : Int) + (score s g).2 ≤ 4 := by
  have h1 : specBulls s g ≤ 4 := hs ▸ specBulls_le_length s g
  have h2 : specOverlap s g ≤ 4 := hg ▸ specOverlap_le_length s g hgd
  have h3 : specBulls s g ≤ specOverlap s g := specBulls_le_specOverlap s g hsd
  rw [score_eq_spec s g hs hg]
  refine ⟨h1, ?_, ?_, ?_⟩ <;> simp <;> omega

/-- Witness for `score_in_range` at `S = [1,2,3,4]`, `G = [4,3,2,1]`. -/
theorem score_in_range_witness :
    (([1, 2, 3, 4] : List Nat).length = 4) ∧ (([4, 3, 2, 1] : List Nat).length = 4) ∧
      (∀ x ∈ ([1, 2, 3, 4] : List Nat), x < 10) ∧
      (∀ x ∈ ([4, 3, 2, 1] : List Nat), x < 10) ∧
      ((score [1, 2, 3, 4] [4, 3, 2, 1]).1 ≤ 4 ∧ 0 ≤ (score [1, 2, 3, 4] [4, 3, 2, 1]).2 ∧
        (score [1, 2, 3, 4] [4, 3, 2, 1]).2 ≤ 4 ∧
        ((score [1, 2, 3, 4] [4, 3, 2, 1]).1 : Int) + (score [1, 2, 3, 4] [4, 3, 2, 1]).2 ≤ 4) :=
  ⟨by decide, by decide, by decide, by decide,
    score_in_range [1, 2, 3, 4] [4, 3, 2, 1] (by decide) (by decide) (by decide) (by decide)⟩

/-- Claim C4: for every secret and guess of length 4 with digits in
`[0,9]`, bulls equals 4 exactly when secret and guess agree at every
position. -/
theorem bulls_eq_four_iff (s g : List Nat) (hs : s.length = 4) (hg : g.length = 4)
    (hsd : ∀ x ∈ s, x < 10) (hgd : ∀ x ∈ g, x < 10) :
    (score s g).1 = 4 ↔ s = g := by
  obtain ⟨s0, s1, s2, s3, rfl⟩ := list_len4 s hs
  obtain ⟨g0, g1, g2, g3, rfl⟩ := list_len4 g hg
  rw [score_eq_spec _ _ hs hg]
  constructor
  · intro h
    simp only [specBulls] at h
    split_ifs at h <;> simp_all
  · intro h
    simp only [List.cons.injEq, and_true] at h
    obtain ⟨h0, h1, h2, h3⟩ := h
    subst h0; subst h1; subst h2; subst h3
    simp [specBulls]

/-- Witness for `bulls_eq_four_iff` at `S = G = [7, 0, 7, 0]`. -/
theorem bulls_eq_four_iff_witness :
    (([7, 0, 7, 0] : List Nat).length = 4) ∧
      (∀ x ∈ ([7, 0, 7, 0] : List Nat), x < 10) ∧
      ((score [7, 0, 7, 0] [7, 0, 7, 0]).1 = 4 ↔ ([7, 0, 7, 0] : List Nat) = [7, 0, 7, 0]) :=
  ⟨by decide, by decide,
    bulls_eq_four_iff [7, 0, 7, 0] [7, 0, 7, 0] (by decide) (by decide) (by decide) (by decide)⟩

/-- Claim C5: scoring is symmetric in its two arguments, for every pair of
4-digit sequences with digits in `[0,9]`. -/
theorem score_symm (s g : List Nat) (hs : s.length = 4) (hg : g.length = 4)
    (hsd : ∀ x ∈ s, x < 10) (hgd : ∀ x ∈ g, x < 10) :
    (score s g).1 = (score g s).1 ∧ (score s g).2 = (score g s).2 := by
  rw [score_eq_spec s g hs hg, score_eq_spec g s hg hs, specBulls_comm s g,
    specOverlap_comm s g]
  exact ⟨rfl, rfl⟩

/-- Witness for `score_symm` at `S = [1,1,2,2]`, `G = [2,1,2,1]`. -/
theorem score_symm_witness :
    (([1, 1, 2, 2] : List Nat).length = 4) ∧ (([2, 1, 2, 1] : List Nat).length = 4) ∧
      (∀ x ∈ ([1, 1, 2, 2] : List Nat), x < 10) ∧
      (∀ x ∈ ([2, 1, 2, 1] : List Nat), x < 10) ∧
      ((score [1, 1, 2, 2] [2, 1, 2, 1]).1 = (score [2, 1, 2, 1] [1, 1, 2, 2]).1 ∧
        (score [1, 1, 2, 2] [2, 1, 2, 1]).2 = (score [2, 1, 2, 1] [1, 1, 2, 2]).2) :=
  ⟨by decide, by decide, by decide, by decide,
    score_symm [1, 1, 2, 2] [2, 1, 2, 1] (by decide) (by decide) (by decide) (by decide)⟩

/-- Claim C8: the scorer reproduces the specification's worked examples:
`([1,2,3,4],[4,3,2,1]) ↦ (0,4)`, `([1,1,2,2],[1,2,1,2]) ↦ (2,2)` and
`([1,2,3,4],[1,1,2,5]) ↦ (1,1)`. -/
theorem scorer_worked_examples :
    score [1, 2, 3, 4] [4, 3, 2, 1] = (0, 4) ∧
      score [1, 1, 2, 2] [1, 2, 1, 2] = (2, 2) ∧
      score [1, 2, 3, 4] [1, 1, 2, 5] = (1, 1) := by
  decide

/-! ### Claims about input handling and the session loop -/

/-- Claim C2 counterexample: `"12a3"` is a trimmed line of length exactly
4, yet the iteration discards it at the parse gate — it is not routed on
to per-character digit decoding, so the parse result does gate further
processing. -/
theorem length4_line_discarded :
    (['1', '2', 'a', '3'] : List Char).length = 4 ∧
      stepLine [0, 0, 0, 0] 0 ['1', '2', 'a', '3'] = .discarded := by
  decide

/-- Claim C2 (amended): the parsed numeric value is never used, but parse
success does gate: a trimmed line is routed on to per-character digit
decoding exactly when it parses as an unsigned integer and its length is
exactly 4 — which still admits non-digit content such as a leading `+`. -/
theorem decode_gate_iff (secret : List Nat) (count : Nat) (line : List Char) :
    stepLine secret count line ≠ .discarded ↔
      parseU32 line ≠ none ∧ line.length = 4 := by
  constructor
  · intro h
    cases hp : parseU32 line
    · simp [stepLine, hp] at h
    · by_cases hl : line.length = 4
      · exact ⟨by simp [hp], hl⟩
      · simp [stepLine, hp, hl] at h
  · rintro ⟨hp, hl⟩
    cases hp2 : parseU32 line
    · exact absurd hp2 hp
    · cases hd : decodeDigits line <;> simp [stepLine, hp2, hl, hd]

/-- Witness for `decode_gate_iff` at the line `"+123"`, which reaches the
decoder despite containing a non-digit character. -/
theorem decode_gate_iff_witness :
    stepLine [0, 0, 0, 0] 0 ['+', '1', '2', '3'] ≠ .discarded ∧
      (parseU32 ['+', '1', '2', '3'] ≠ none ∧ (['+', '1', '2', '3'] : List Char).length = 4) :=
  ⟨(decode_gate_iff [0, 0, 0, 0] 0 ['+', '1', '2', '3']).mpr ⟨by decide, by decide⟩,
    by decide, by decide⟩

/-- Claim C6: a trimmed line that fails the unsigned-integer parse, or
whose length differs from 4, is silently discarded: the attempt counter is
untouched, no score line is printed, and only the re-prompt is emitted. -/
theorem invalid_input_discarded (secret : List Nat) (count : Nat) (line : List Char)
    (h : parseU32 line = none ∨ line.length ≠ 4) :
    stepLine secret count line = .discarded ∧
      iterOutputs secret count line = ["Please input your guess."] := by
  have hstep : stepLine secret count line = .discarded := by
    rcases h with h | h
    · simp [stepLine, h]
    · cases hp : parseU32 line <;> simp [stepLine, hp, h]
  exact ⟨hstep, by simp [iterOutputs, hstep]⟩

/-- Witness for `invalid_input_discarded` at the unparseable line `"abc"`. -/
theorem invalid_input_discarded_witness :
    (parseU32 ['a', 'b', 'c'] = none ∨ (['a', 'b', 'c'] : List Char).length ≠ 4) ∧
      (stepLine [0, 0, 0, 0] 0 ['a', 'b', 'c'] = .discarded ∧
        iterOutputs [0, 0, 0, 0] 0 ['a', 'b', 'c'] = ["Please input your guess."]) :=
  ⟨Or.inl (by decide),
    invalid_input_discarded [0, 0, 0, 0] 0 ['a', 'b', 'c'] (Or.inl (by decide))⟩

/-- Claim C7: an accepted guess wins exactly when its bulls count is 4;
on a win the session prints the win message carrying the updated attempt
counter and stops (ignoring any further input), while a non-winning
accepted guess loops back with the incremented counter. -/
theorem win_is_terminal (secret : List Nat) (count : Nat) (line : List Char)
    (rest : List (List Char)) (c a : Nat) (b : Int) (w : Bool)
    (h : stepLine secret count line = .scored c a b w) :
    (w = true ↔ a = 4) ∧
      (w = true →
        run secret count (line :: rest) = .won c ∧
          ("You Win! You tried : " ++ toString c) ∈ iterOutputs secret count line) ∧
      (w = false → run secret count (line :: rest) = run secret c rest) := by
  have key : w = (a == 4) := by
    simp only [stepLine] at h
    cases hp : parseU32 line <;> rw [hp] at h
    · simp at h
    · by_cases hl : line.length = 4
      · rw [if_neg (not_not_intro hl)] at h
        cases hd : decodeDigits line <;> rw [hd] at h
        · simp at h
        · simp only [IterOutcome.scored.injEq] at h
          rw [← h.2.2.2, ← h.2.1]
      · rw [if_pos hl] at h; simp at h
  refine ⟨?_, ?_, ?_⟩
  · rw [key]; simp
  · intro hw
    exact ⟨by simp [run, h, hw], by simp [iterOutputs, h, hw]⟩
  · intro hw
    simp [run, h, hw]

/-- Witness for `win_is_terminal`: with secret `[1,2,3,4]`, the guess line
`"1234"` scores 4 bulls on attempt 1 and the session ends in the won
state. -/
theorem win_is_terminal_witness :
    stepLine [1, 2, 3, 4] 0 ['1', '2', '3', '4'] = .scored 1 4 0 true ∧
      ((true = true ↔ 4 = 4) ∧
        (true = true →
          run [1, 2, 3, 4] 0 [['1', '2', '3', '4']] = .won 1 ∧
            ("You Win! You tried : " ++ toString 1) ∈
              iterOutputs [1, 2, 3, 4] 0 ['1', '2', '3', '4']) ∧
        (true = false →
          run [1, 2, 3, 4] 0 [['1', '2', '3', '4']] = run [1, 2, 3, 4] 1 [])) :=
  ⟨by decide,
    win_is_terminal [1, 2, 3, 4] 0 ['1', '2', '3', '4'] [] 1 4 0 true (by decide)⟩

/-- Claim C9: the trimmed line `"+123"` parses as the unsigned integer 123
and has length 4, so it passes both gates, but its first character defeats
`to_digit`, so the decode `unwrap` panics — after the attempt counter was
already incremented (here from 0 to 1). -/
theorem plus_line_panics_after_increment :
    parseU32 ['+', '1', '2', '3'] = some 123 ∧
      (['+', '1', '2', '3'] : List Char).length = 4 ∧
      decodeDigits ['+', '1', '2', '3'] = none ∧
      stepLine [0, 0, 0, 0] 0 ['+', '1', '2', '3'] = .panicked 1 := by
  decide

/-- Claim C10: for every secret and decoded guess (4 digits each in
`[0,9]`), the positional-match count never exceeds the multiset overlap
`b0`, so the running cows value — started at `b0` and decremented once per
positional match — is non-negative after every step `k` of the subtraction
loop, and in particular the printed cows value is non-negative. -/
theorem cows_stay_nonneg (s g : List Nat) (hs : s.length = 4) (hg : g.length = 4)
    (hsd : ∀ x ∈ s, x < 10) (hgd : ∀ x ∈ g, x < 10) :
    specBulls s g ≤ specOverlap s g ∧
      (∀ k, k ≤ 4 →
        0 ≤ (abSteps s g ((overlapLoop (buildHist s) (buildHist g) : Nat) : Int) k).2) ∧
      0 ≤ (score s g).2 := by
  have hb := specBulls_le_specOverlap s g hsd
  refine ⟨hb, ?_, ?_⟩
  · rw [overlapLoop_hist]
    intro k hk
    rw [abSteps_snd]
    have hmono := abSteps_fst_mono s g ((specOverlap s g : Nat) : Int) hk
    have hfst := abLoop_fst s g hs hg ((specOverlap s g : Nat) : Int)
    rw [abLoop] at hfst
    omega
  · rw [score_eq_spec s g hs hg]
    simp only []
    omega

/-- Witness for `cows_stay_nonneg` at `S = [1,1,2,2]`, `G = [1,2,1,2]`,
after the full four steps of the subtraction loop. -/
theorem cows_stay_nonneg_witness :
    (([1, 1, 2, 2] : List Nat).length = 4) ∧ (([1, 2, 1, 2] : List Nat).length = 4) ∧
      (∀ x ∈ ([1, 1, 2, 2] : List Nat), x < 10) ∧
      (∀ x ∈ ([1, 2, 1, 2] : List Nat), x < 10) ∧
      0 ≤ (abSteps [1, 1, 2, 2] [1, 2, 1, 2]
        ((overlapLoop (buildHist [1, 1, 2, 2]) (buildHist [1, 2, 1, 2]) : Nat) : Int) 4).2 :=
  ⟨by decide, by decide, by decide, by decide,
    (cows_stay_nonneg [1, 1, 2, 2] [1, 2, 1, 2]
      (by decide) (by decide) (by decide) (by decide)).2.1 4 (by decide)⟩

end BullsAndCows
